import Mathlib

/-!
Verification of the `BluetoothLEDevice` facade (pygatt `classes.py`) against its
natural-language specification. We shallowly embed the BLED112 branch of each
method: machine-level backend capabilities (`get_handle`, `char_write`,
`get_notifications`, `remove_notification`, `get_rssi`, `subscribe`) live
outside this file's source and are treated as oracle parameters; the facade
logic (argument checks, handle resolution, the wait/reassemble polling loop,
callback dispatch, registry updates, RSSI retry) is translated directly from
the Python source. Exceptions are modelled with an explicit error type; Python
floats for the accumulated wait time are modelled as rationals (the source only
ever adds the exactly-representable constant 0.25).
-/

/-- Python-level failure modes that the translated code can surface. -/
inductive PyErr where
  /-- `AttributeError`, e.g. from calling a method on `None`. -/
  | attributeError : PyErr
  /-- the error `binascii.unhexlify` raises on a non-hex or odd-length string. -/
  | typeError : PyErr
  /-- `ValueError(msg)`. -/
  | valueError (msg : String) : PyErr
  /-- `Exception(msg)` raised with `raise`. -/
  | exceptionMsg (msg : String) : PyErr
  /-- `NoResponseError`, carrying the accumulated `sec_waited` argument. -/
  | noResponse (secWaited : ℚ) : PyErr
  /-- `IndexError` from indexing an empty list. -/
  | indexError : PyErr
  /-- `KeyError` from looking up a missing dictionary key. -/
  | keyError : PyErr
  /-- an exception propagating out of the observer callback at a given
  position of the registry entry. -/
  | callbackException (idx : Nat) : PyErr
  deriving DecidableEq

/-- An observer callback, modelled by its observable behaviour at dispatch
time: given the delivered byte sequence, `true` means the callback raises an
exception, `false` means it returns normally. -/
def Cb : Type := List Nat → Bool

/-- Value of one hexadecimal digit character, as accepted by
`binascii.unhexlify` (both letter cases). -/
def hexVal (c : Char) : Option Nat :=
  if '0' ≤ c ∧ c ≤ '9' then some (c.toNat - '0'.toNat)
  else if 'a' ≤ c ∧ c ≤ 'f' then some (c.toNat - 'a'.toNat + 10)
  else if 'A' ≤ c ∧ c ≤ 'F' then some (c.toNat - 'A'.toNat + 10)
  else none

/-- `binascii.unhexlify` on a character list: consume hex digits two at a
time, producing one byte per pair; any non-hex character or an odd length is
an error (`none`). -/
def unhexlifyChars : List Char → Option (List Nat)
  | [] => some []
  | [_] => none
  | c1 :: c2 :: rest =>
    match hexVal c1, hexVal c2, unhexlifyChars rest with
    | some hi, some lo, some bs => some ((16 * hi + lo) :: bs)
    | _, _, _ => none

/-- `BluetoothLEDevice._uuid_bytearray`: `unhexlify(uuid.replace("-", ""))` —
drop every hyphen, then hex-decode the remaining characters. -/
def uuidBytearray (uuid : String) : Option (List Nat) :=
  unhexlifyChars (uuid.data.filter (fun c => c != '-'))

/-- What a call to `get_rssi` hands back to the caller.  The source's failure
path is `return Exception("get rssi failed")`: the `Exception` object is
returned as an ordinary value, not raised, so the result type distinguishes an
integer reading from a returned exception object. -/
inductive RssiResult where
  | intValue (v : ℤ) : RssiResult
  | exceptionObject (msg : String) : RssiResult
  deriving DecidableEq

/-- `BluetoothLEDevice.get_rssi`, BLED112 branch.  `backendRssi i` is the
value the backend's `get_rssi()` returns on its `i`-th invocation (an oracle
for the external BLED112 backend).  The source tries at most 3 times
(`for i in range(0, 3)`), returns the first reading different from the
sentinel 25, and after the loop does `return Exception("get rssi failed")`. -/
def getRssi (backendRssi : Nat → ℤ) : RssiResult :=
  if backendRssi 0 ≠ 25 then .intValue (backendRssi 0)
  else if backendRssi 1 ≠ 25 then .intValue (backendRssi 1)
  else if backendRssi 2 ≠ 25 then .intValue (backendRssi 2)
  else .exceptionObject "get rssi failed"

/-- Oracle view of the external BLED112 backend, as consumed by `char_write`.
`getHandle` is `backend.get_handle` on a decoded UUID byte sequence (`none`
models a failed lookup, which the source passes on unchecked).  `writeOk` is
the truthiness of `backend.char_write(handle, value)`.  `inboxAt k` is the
notification queue for the resolved response handle as the `k`-th call to
`backend.get_notifications()` observes it (the backend's listener may append
entries between polls; the facade itself only ever removes index 0). -/
structure BackendEnv where
  getHandle : List Nat → Option Nat
  writeOk : Option Nat → List Nat → Bool
  inboxAt : Nat → List (List Nat)

/-- `BluetoothLEDevice._get_handle`, BLED112 branch: convert the UUID string
with `_uuid_bytearray` (an argument of `None` hits `None.replace` and raises
`AttributeError`; a malformed string makes `unhexlify` raise), then ask the
backend for the handle. -/
def getHandleRes (env : BackendEnv) (uuid : Option String) : Except PyErr (Option Nat) :=
  match uuid with
  | none => .error .attributeError
  | some s =>
    match uuidBytearray s with
    | none => .error .typeError
    | some bs => .ok (env.getHandle bs)

/-- The `while (len(notifications[handle_recv]) < num_packets)` polling loop of
`char_write`.  `k` is the index of the current poll, so the accumulated
`sec_waited` equals `k / 4` (one 0.25 s quantum per completed iteration).
`.inl k` means the loop exited to reassembly at poll `k`; `.inr k` means it
raised `NoResponseError` at poll `k` (with `sec_waited = k / 4`).  The inbox
length is tested first (the loop guard), and only then the timeout, exactly as
in the source. -/
def waitLoop (inboxAt : Nat → List (List Nat)) (numPackets : ℤ) (timeout : ℚ) (k : Nat) :
    Nat ⊕ Nat :=
  if (((inboxAt k).length : ℤ) < numPackets) then
    if h2 : timeout ≤ (k : ℚ) / 4 then .inr k
    else waitLoop inboxAt numPackets timeout (k + 1)
  else .inl k
termination_by (⌈4 * timeout⌉).toNat - k
decreasing_by
  have hlt : (k : ℚ) < 4 * timeout := by
    rw [not_le, div_lt_iff₀ (by norm_num : (0:ℚ) < 4)] at h2
    linarith [h2]
  have hk : (k : ℤ) < ⌈4 * timeout⌉ := Int.lt_ceil.mpr hlt
  omega

/-- The reassembly loop of `char_write`:
`for i in range(0, n): val = q[0]; value_list += [b for b in val]; pop q[0]`.
Reads the head of the (live) queue and removes it, `n` times; `none` models
the `IndexError` Python would raise if the queue ran dry. Returns the
accumulated byte list and the remaining queue. -/
def drainLoop : Nat → List (List Nat) → Option (List Nat × List (List Nat))
  | 0, q => some ([], q)
  | _ + 1, [] => none
  | n + 1, v :: rest =>
    match drainLoop n rest with
    | none => none
    | some (acc, q) => some (v ++ acc, q)

/-- The `for cb in self._callbacks[uuid_recv]: cb(bytearray(value_list))`
dispatch loop, starting at registry position `i`.  Returns the positions
invoked, in order, together with `.ok` or the exception of the first callback
that raised (the source has no per-callback exception isolation, so a raise
aborts the loop). -/
def dispatchFrom (v : List Nat) : Nat → List Cb → List Nat × Except PyErr Unit
  | _, [] => ([], .ok ())
  | i, cb :: rest =>
    if cb v then ([i], .error (.callbackException i))
    else
      let r := dispatchFrom v (i + 1) rest
      (i :: r.1, r.2)

/-- Dispatch over a full registry entry, from position 0. -/
def dispatch (cbs : List Cb) (v : List Nat) : List Nat × Except PyErr Unit :=
  dispatchFrom v 0 cbs

instance : DecidableEq (Except PyErr Unit) := fun a b =>
  match a, b with
  | .ok x, .ok y => decidable_of_iff (x = y) (by simp)
  | .error x, .error y => decidable_of_iff (x = y) (by simp)
  | .ok _, .error _ => .isFalse (fun h => Except.noConfusion h)
  | .error _, .ok _ => .isFalse (fun h => Except.noConfusion h)

/-- Observable outcome of one `char_write` call (BLED112 branch): the Python
return/raise, the `_get_handle` calls attempted (in order, with their
arguments), the `backend.char_write` calls issued, whether
`backend.get_notifications` was ever consulted, the observer invocations
`(registry position, delivered bytes)` in order, and the response-handle
queue as the call leaves it. -/
structure CharWriteResult where
  result : Except PyErr Unit
  resolveCalls : List (Option String)
  backendWrites : List (Option Nat × List Nat)
  inboxPolled : Bool
  invoked : List (Nat × List Nat)
  inboxAfter : List (List Nat)
  deriving DecidableEq

/-- `BluetoothLEDevice.char_write`, BLED112 branch, translated line by line:
the `num_packets` precondition check, unconditional resolution of both
`uuid_write` and `uuid_recv`, the backend write with its truthiness check,
then (only if `wait_for_response`) the polling loop, head-removal reassembly
and callback dispatch.  `callbacks` is the `self._callbacks` dictionary as a
total function (a UUID with no entry has the empty list, making the
`uuid_recv in self._callbacks` guard and the subsequent loop equivalent to
iterating the empty list).  A response handle of `None` models
`notifications[None]` raising `KeyError` (the queue oracle `inboxAt` is the
queue of the successfully resolved handle). -/
def charWrite (env : BackendEnv) (callbacks : String → List Cb)
    (uuidWrite uuidRecv : Option String) (value : List Nat)
    (waitForResponse : Bool) (numPackets : ℤ) (timeout : ℚ) : CharWriteResult :=
  if waitForResponse = true ∧ numPackets ≤ 0 then
    ⟨.error (.valueError "num_packets must be greater than 0"), [], [], false, [],
      env.inboxAt 0⟩
  else
    match getHandleRes env uuidWrite with
    | .error e => ⟨.error e, [uuidWrite], [], false, [], env.inboxAt 0⟩
    | .ok handleWrite =>
      match getHandleRes env uuidRecv with
      | .error e => ⟨.error e, [uuidWrite, uuidRecv], [], false, [], env.inboxAt 0⟩
      | .ok handleRecv =>
        if env.writeOk handleWrite value = false then
          ⟨.error (.exceptionMsg "write failed"), [uuidWrite, uuidRecv],
            [(handleWrite, value)], false, [], env.inboxAt 0⟩
        else if waitForResponse = false then
          ⟨.ok (), [uuidWrite, uuidRecv], [(handleWrite, value)], false, [],
            env.inboxAt 0⟩
        else
          match handleRecv with
          | none =>
            ⟨.error .keyError, [uuidWrite, uuidRecv], [(handleWrite, value)], true, [], []⟩
          | some _ =>
            match waitLoop env.inboxAt numPackets timeout 0 with
            | .inr k =>
              ⟨.error (.noResponse ((k : ℚ) / 4)), [uuidWrite, uuidRecv],
                [(handleWrite, value)], true, [], env.inboxAt k⟩
            | .inl k =>
              match drainLoop numPackets.toNat (env.inboxAt k) with
              | none =>
                ⟨.error .indexError, [uuidWrite, uuidRecv], [(handleWrite, value)],
                  true, [], []⟩
              | some (assembled, remaining) =>
                let cbs := match uuidRecv with
                  | some s => callbacks s
                  | none => []
                let d := dispatch cbs assembled
                ⟨d.2, [uuidWrite, uuidRecv], [(handleWrite, value)],
                  true, d.1.map (fun i => (i, assembled)), remaining⟩

/-- Observable outcome of one `subscribe` call (BLED112 branch): the Python
return/raise, whether `backend.subscribe` was reached, and the callback
registry afterwards. -/
structure SubscribeResult where
  result : Except PyErr Unit
  backendSubscribed : Bool
  registry : String → List Cb

/-- `BluetoothLEDevice.subscribe`, BLED112 branch.  The method's very first
statement logs `callback.__name__`, so a `callback` of `None` raises
`AttributeError` before any backend interaction or registry change.  Otherwise
`backend.subscribe(self._uuid_bytearray(uuid), ...)` runs (a malformed UUID
string raises there), and only then is the callback appended to the registry
entry for `uuid` (an absent entry is first created empty, which the total
function model renders as the default empty list). -/
def subscribeOp (reg : String → List Cb) (uuid : String) (callback : Option Cb)
    (indication : Bool) : SubscribeResult :=
  match callback with
  | none => ⟨.error .attributeError, false, reg⟩
  | some cb =>
    match uuidBytearray uuid with
    | none => ⟨.error .typeError, false, reg⟩
    | some _ =>
      ⟨.ok (), true, fun u => if u = uuid then reg u ++ [cb] else reg u⟩

/-- One public operation of the facade, abstracted to its effect on the
callback registry.  Inspection of the source shows `subscribe` is the only
method that writes `self._callbacks` (`char_write` only reads it), so every
other public operation (`bond`, `connect`, `char_read`, `char_write`,
`encrypt`, `get_rssi`, `run`, `stop`) is registry-preserving. -/
inductive DeviceOp where
  | subscribeCall (uuid : String) (callback : Option Cb) (indication : Bool) : DeviceOp
  | otherCall : DeviceOp

/-- Effect of one public operation on the callback registry. -/
def registryStep (reg : String → List Cb) : DeviceOp → (String → List Cb)
  | .subscribeCall u cb ind => (subscribeOp reg u cb ind).registry
  | .otherCall => reg

/-- Registry after a sequence of public operations. -/
def runOps (reg : String → List Cb) : List DeviceOp → (String → List Cb)
  | [] => reg
  | op :: rest => runOps (registryStep reg op) rest

/-! ### Helper lemmas -/

/-- A character that decodes as a hex digit is not the hyphen. -/
theorem hexVal_ne_dash {c : Char} {v : Nat} (h : hexVal c = some v) : (c != '-') = true := by
  by_contra hne
  have hc : c = '-' := by
    simpa [bne_iff_ne] using hne
  subst hc
  simp [hexVal] at h

/-- `unhexlifyChars` on a cons-cons list, phrased for rewriting. -/
theorem unhexlifyChars_cons {c1 c2 : Char} {rest : List Char} {v1 v2 : Nat} {bs : List Nat}
    (h1 : hexVal c1 = some v1) (h2 : hexVal c2 = some v2)
    (hr : unhexlifyChars rest = some bs) :
    unhexlifyChars (c1 :: c2 :: rest) = some ((16 * v1 + v2) :: bs) := by
  simp [unhexlifyChars, h1, h2, hr]

/-- The polling loop exits to reassembly as soon as the inbox is long enough,
regardless of the timeout state (the inbox guard is checked first). -/
theorem waitLoop_exit {inboxAt : Nat → List (List Nat)} {n : ℤ} {t : ℚ} {k : Nat}
    (h : ¬ (((inboxAt k).length : ℤ) < n)) :
    waitLoop inboxAt n t k = .inl k := by
  rw [waitLoop]
  simp [h]

/-- The polling loop raises when the inbox is short and the accumulated wait
has reached the timeout. -/
theorem waitLoop_raise {inboxAt : Nat → List (List Nat)} {n : ℤ} {t : ℚ} {k : Nat}
    (h1 : ((inboxAt k).length : ℤ) < n) (h2 : t ≤ (k : ℚ) / 4) :
    waitLoop inboxAt n t k = .inr k := by
  rw [waitLoop]
  simp [h1, h2]

/-- One non-final iteration of the polling loop: short inbox, timeout not yet
reached, so sleep a quantum and re-poll. -/
theorem waitLoop_step {inboxAt : Nat → List (List Nat)} {n : ℤ} {t : ℚ} {k : Nat}
    (h1 : ((inboxAt k).length : ℤ) < n) (h2 : ¬ t ≤ (k : ℚ) / 4) :
    waitLoop inboxAt n t k = waitLoop inboxAt n t (k + 1) := by
  rw [waitLoop]
  simp [h1, h2]

/-- Before poll `⌈4 t⌉.toNat`, the accumulated wait is still below the
timeout. -/
theorem quarter_lt_timeout {t : ℚ} {k : Nat} (hk : k < (⌈4 * t⌉).toNat) :
    (k : ℚ) / 4 < t := by
  have h1 : (k : ℤ) < ⌈4 * t⌉ := Int.lt_toNat.mp hk
  have h2 : ((⌈4 * t⌉ : ℚ)) < 4 * t + 1 := Int.ceil_lt_add_one (4 * t)
  have h3 : (k : ℚ) < 4 * t := by
    have : ((k : ℤ) : ℚ) + 1 ≤ (⌈4 * t⌉ : ℚ) := by
      exact_mod_cast Int.add_one_le_iff.mpr h1
    push_cast at this
    linarith
  linarith [h3]

/-- At poll `⌈4 t⌉.toNat`, the accumulated wait has reached the timeout. -/
theorem timeout_le_quarter {t : ℚ} : t ≤ (((⌈4 * t⌉).toNat : ℚ)) / 4 := by
  have h1 : (4 : ℚ) * t ≤ (⌈4 * t⌉ : ℚ) := Int.le_ceil (4 * t)
  have h2 : (⌈4 * t⌉ : ℚ) ≤ ((⌈4 * t⌉).toNat : ℚ) := by
    exact_mod_cast Int.self_le_toNat _
  rw [le_div_iff₀ (by norm_num : (0:ℚ) < 4)]
  linarith

/-- If the inbox never gets long enough, the polling loop started at `k`
raises at poll `⌈4 t⌉.toNat` (elapsed wait `⌈4 t⌉.toNat / 4`). -/
theorem waitLoop_never {inboxAt : Nat → List (List Nat)} {n : ℤ} {t : ℚ}
    (h : ∀ i, ((inboxAt i).length : ℤ) < n) :
    ∀ j k, k + j = (⌈4 * t⌉).toNat →
      waitLoop inboxAt n t k = .inr ((⌈4 * t⌉).toNat) := by
  intro j
  induction j with
  | zero =>
    intro k hk
    have hk0 : k = (⌈4 * t⌉).toNat := by omega
    subst hk0
    exact waitLoop_raise (h _) timeout_le_quarter
  | succ j ih =>
    intro k hk
    have hlt : k < (⌈4 * t⌉).toNat := by omega
    have hstep := waitLoop_step (h k) (not_le.mpr (quarter_lt_timeout hlt))
    rw [hstep]
    exact ih (k + 1) (by omega)

/-- The polling loop, started at poll 0 with an inbox that never reaches the
required length, raises at poll `⌈4 t⌉.toNat`. -/
theorem waitLoop_never_zero {inboxAt : Nat → List (List Nat)} {n : ℤ} {t : ℚ}
    (h : ∀ i, ((inboxAt i).length : ℤ) < n) :
    waitLoop inboxAt n t 0 = .inr ((⌈4 * t⌉).toNat) :=
  waitLoop_never h ((⌈4 * t⌉).toNat) 0 (by omega)

/-- The polling loop always stops within the poll budget `⌈4 t⌉.toNat`. -/
theorem waitLoop_bounded (inboxAt : Nat → List (List Nat)) (n : ℤ) (t : ℚ) :
    ∀ j k, k + j = (⌈4 * t⌉).toNat →
      ∃ k2, k2 ≤ (⌈4 * t⌉).toNat ∧
        (waitLoop inboxAt n t k = .inl k2 ∨ waitLoop inboxAt n t k = .inr k2) := by
  intro j
  induction j with
  | zero =>
    intro k hk
    have hk0 : k = (⌈4 * t⌉).toNat := by omega
    subst hk0
    by_cases hshort : ((inboxAt ((⌈4 * t⌉).toNat)).length : ℤ) < n
    · exact ⟨_, le_rfl, Or.inr (waitLoop_raise hshort timeout_le_quarter)⟩
    · exact ⟨_, le_rfl, Or.inl (waitLoop_exit hshort)⟩
  | succ j ih =>
    intro k hk
    by_cases hshort : ((inboxAt k).length : ℤ) < n
    · have hlt : k < (⌈4 * t⌉).toNat := by omega
      rw [waitLoop_step hshort (not_le.mpr (quarter_lt_timeout hlt))]
      exact ih (k + 1) (by omega)
    · exact ⟨k, by omega, Or.inl (waitLoop_exit hshort)⟩

/-- Draining `n` entries of a queue holding at least `n`: the accumulated
bytes are the concatenation of the first `n` entries in order, and exactly
those `n` head entries are removed. -/
theorem drainLoop_eq : ∀ (n : Nat) (q : List (List Nat)), n ≤ q.length →
    drainLoop n q = some ((q.take n).flatten, q.drop n) := by
  intro n
  induction n with
  | zero => intro q _; simp [drainLoop]
  | succ n ih =>
    intro q hq
    match q with
    | [] => simp at hq
    | v :: rest =>
      have hr : n ≤ rest.length := by simpa using hq
      simp [drainLoop, ih rest hr]

/-- Prepending the start position to a shifted index range re-indexes it:
the invocation indices produced from position `i` are `i, i+1, …`. -/
theorem range_map_shift (L i : Nat) :
    i :: (List.range L).map (fun j => i + 1 + j) = (List.range (L + 1)).map (fun j => i + j) := by
  rw [List.range_succ_eq_map, List.map_cons, List.map_map]
  have h0 : i + 0 = i := by omega
  rw [h0]
  congr 1
  apply List.map_congr_left
  intro a _
  simp only [Function.comp_apply]
  omega

/-- Dispatch over callbacks none of which raises: every position is invoked,
in registration order, and the loop completes normally. -/
theorem dispatchFrom_ok {v : List Nat} :
    ∀ (cbs : List Cb) (i : Nat), (∀ cb ∈ cbs, cb v = false) →
      dispatchFrom v i cbs = ((List.range cbs.length).map (fun j => i + j), .ok ()) := by
  intro cbs
  induction cbs with
  | nil => intro i _; simp [dispatchFrom]
  | cons cb rest ih =>
    intro i h
    have hcb : cb v = false := h cb (by simp)
    have hrest : ∀ c ∈ rest, c v = false := fun c hc => h c (by simp [hc])
    simp only [dispatchFrom, hcb, Bool.false_eq_true, if_false, ih (i + 1) hrest,
      List.length_cons]
    rw [← range_map_shift]

/-- Dispatch when the callbacks before position `pre.length` all return
normally and the one at `pre.length` raises: positions `0 … pre.length` are
invoked in order, the exception propagates, and no later position runs. -/
theorem dispatchFrom_abort {v : List Nat} {cb : Cb} (hcb : cb v = true) :
    ∀ (pre post : List Cb) (i : Nat), (∀ c ∈ pre, c v = false) →
      dispatchFrom v i (pre ++ cb :: post) =
        ((List.range (pre.length + 1)).map (fun j => i + j),
          .error (.callbackException (i + pre.length))) := by
  intro pre
  induction pre with
  | nil =>
    intro post i _
    simp [dispatchFrom, hcb]
    rw [← range_map_shift 0 i]
    simp
  | cons c rest ih =>
    intro post i h
    have hc : c v = false := h c (by simp)
    have hrest : ∀ x ∈ rest, x v = false := fun x hx => h x (by simp [hx])
    simp only [List.cons_append, dispatchFrom, hc, Bool.false_eq_true, if_false,
      List.append_eq, ih post (i + 1) hrest, List.length_cons]
    rw [← range_map_shift (rest.length + 1) i]
    have hx : i + 1 + rest.length = i + (rest.length + 1) := by omega
    rw [hx]

/-- `char_write` in the waiting configuration with both UUIDs well-formed, the
response handle resolved, a positive packet count and a successful backend
write: the outcome is decided by the polling loop, reassembly and dispatch. -/
theorem charWrite_wait_unfold (env : BackendEnv) (cbs : String → List Cb)
    (sW sR : String) (bsW bsR : List Nat) (hR : Nat) (value : List Nat)
    (n : ℤ) (t : ℚ)
    (hn : 0 < n)
    (hbW : uuidBytearray sW = some bsW) (hbR : uuidBytearray sR = some bsR)
    (hok : env.writeOk (env.getHandle bsW) value = true)
    (hrecv : env.getHandle bsR = some hR) :
    charWrite env cbs (some sW) (some sR) value true n t =
      match waitLoop env.inboxAt n t 0 with
      | .inr k =>
        ⟨.error (.noResponse ((k : ℚ) / 4)), [some sW, some sR],
          [(env.getHandle bsW, value)], true, [], env.inboxAt k⟩
      | .inl k =>
        match drainLoop n.toNat (env.inboxAt k) with
        | none =>
          ⟨.error .indexError, [some sW, some sR], [(env.getHandle bsW, value)],
            true, [], []⟩
        | some (assembled, remaining) =>
          ⟨(dispatch (cbs sR) assembled).2, [some sW, some sR],
            [(env.getHandle bsW, value)], true,
            (dispatch (cbs sR) assembled).1.map (fun i => (i, assembled)), remaining⟩ := by
  have hcond : ¬ (true = true ∧ n ≤ 0) := by
    simp
    omega
  simp only [charWrite, getHandleRes, hbW, hbR, hrecv, hok, if_neg hcond]
  norm_num
  intro hle
  exact absurd hle (not_le.mpr hn)

/-! ### Claim C1 -/

/-- Claim C1: `get_rssi` on a BLED112 backend queries the backend up to 3
times and returns the first reading different from the sentinel 25; but on
the all-sentinel path the source executes `return Exception("get rssi
failed")`, handing the caller an `Exception` object as an ordinary return
value instead of raising (contradicting both the claim and the method's own
docstring, which promises `None` on failure).  Evaluated here at the failing
input (backend answers 25 on all three attempts) and, for the working part of
the claim, at a backend that answers 25 twice and then -40. -/
theorem getRssi_sentinel_returned_not_raised :
    getRssi (fun _ => 25) = .exceptionObject "get rssi failed" ∧
    getRssi (fun i => if i = 2 then -40 else 25) = .intValue (-40) := by
  constructor
  · decide
  · decide

/-! ### Claim C2 -/

/-- Claim C2 (counterexample): with two observers registered for the response
identifier where the first raises, `char_write` invokes only position 0 —
position 1 never receives the reassembled value, and the first observer's
exception propagates out of the call.  This refutes the claim that an
exception in an earlier observer does not prevent subsequent observers from
being invoked. -/
theorem charWrite_dispatch_abort_cex :
    charWrite ⟨fun _ => some 1, fun _ _ => true, fun _ => [[1,2]]⟩
        (fun u => if u = "aa" then [fun _ => true, fun _ => false] else [])
        (some "aa") (some "aa") [0] true 1 5 =
      ⟨.error (.callbackException 0), [some "aa", some "aa"], [(some 1, [0])],
        true, [(0, [1, 2])], []⟩ := by
  have hw : waitLoop (fun _ => [[1,2]]) 1 5 0 = .inl 0 := by
    rw [waitLoop]; norm_num
  simp only [charWrite]
  simp only [hw]
  decide

/-- Claim C2 (amended): during notification dispatch after reassembly in
`char_write`, observers are invoked in registration order, but there is no
per-observer exception isolation: with registry entry `pre ++ cbT :: post`
where no member of `pre` raises on the delivered value and `cbT` raises,
exactly positions `0 … pre.length` are invoked (each with the reassembled
value, in registration order), the exception propagates out of `char_write`,
and no observer in `post` is invoked. -/
theorem charWrite_dispatch_abort (env : BackendEnv) (cbs : String → List Cb)
    (sW sR : String) (bsW bsR : List Nat) (hR : Nat) (value : List Nat)
    (n : ℤ) (t : ℚ) (pre post : List Cb) (cbT : Cb)
    (hn : 0 < n)
    (hbW : uuidBytearray sW = some bsW) (hbR : uuidBytearray sR = some bsR)
    (hok : env.writeOk (env.getHandle bsW) value = true)
    (hrecv : env.getHandle bsR = some hR)
    (hfull : n ≤ ((env.inboxAt 0).length : ℤ))
    (hcbs : cbs sR = pre ++ cbT :: post)
    (hpre : ∀ c ∈ pre, c (((env.inboxAt 0).take n.toNat).flatten) = false)
    (hT : cbT (((env.inboxAt 0).take n.toNat).flatten) = true) :
    charWrite env cbs (some sW) (some sR) value true n t =
      ⟨.error (.callbackException pre.length), [some sW, some sR],
        [(env.getHandle bsW, value)], true,
        (List.range (pre.length + 1)).map
          (fun i => (i, ((env.inboxAt 0).take n.toNat).flatten)),
        (env.inboxAt 0).drop n.toNat⟩ := by
  rw [charWrite_wait_unfold env cbs sW sR bsW bsR hR value n t hn hbW hbR hok hrecv]
  rw [waitLoop_exit (not_lt.mpr hfull)]
  have hlen : n.toNat ≤ (env.inboxAt 0).length := by omega
  simp only [drainLoop_eq _ _ hlen, dispatch, hcbs, dispatchFrom_abort hT pre post 0 hpre]
  simp [List.map_map]

/-- Claim C2 (witness): the amended statement at a concrete input — one
packet `[3,4]`, registry `"bb" ↦ [raising, benign]` — gives exactly one
invocation, at position 0, and the propagated observer exception. -/
theorem charWrite_dispatch_abort_inst :
    charWrite ⟨fun _ => some 1, fun _ _ => true, fun _ => [[3,4]]⟩
        (fun u => if u = "bb" then [fun _ => true, fun _ => false] else [])
        (some "bb") (some "bb") [7] true 1 2 =
      ⟨.error (.callbackException 0), [some "bb", some "bb"], [(some 1, [7])],
        true, [(0, [3, 4])], []⟩ := by
  have h := charWrite_dispatch_abort ⟨fun _ => some 1, fun _ _ => true, fun _ => [[3,4]]⟩
    (fun u => if u = "bb" then [fun _ => true, fun _ => false] else [])
    "bb" "bb" [187] [187] 1 [7] 1 2 [] [fun _ => false] (fun _ => true)
    (by norm_num) (by decide) (by decide) rfl rfl (by norm_num) rfl
    (by intro c hc; simp at hc) rfl
  simpa using h

/-! ### Claim C3 -/

/-- Claim C3 (counterexample): `char_write` with `wait_for_response = False`
and `uuid_recv = None` does not succeed: the source resolves `uuid_recv`
unconditionally, so the call raises `AttributeError` (from
`None.replace("-", "")` in `_uuid_bytearray`) and the backend write is never
issued.  This refutes the claim that the response-source identifier is not
resolved and the call succeeds. -/
theorem charWrite_no_wait_none_recv_cex :
    charWrite ⟨fun _ => some 1, fun _ _ => true, fun _ => []⟩ (fun _ => [])
        (some "aa") none [1] false 1 5 =
      ⟨.error .attributeError, [some "aa", none], [], false, [], []⟩ := by
  decide

/-- Claim C3 (amended): `char_write` with `wait_for_response = False`
resolves both the write-target identifier and the response-source identifier
unconditionally; when `uuid_recv` is `None` the call raises `AttributeError`
before issuing the backend write, and when `uuid_recv` is a well-formed UUID
string and the backend write succeeds, the call issues exactly that write and
returns without ever consulting the notification inbox. -/
theorem charWrite_no_wait_resolves_recv (env : BackendEnv) (cbs : String → List Cb)
    (sW : String) (bsW : List Nat) (value : List Nat) (n : ℤ) (t : ℚ)
    (hbW : uuidBytearray sW = some bsW) :
    charWrite env cbs (some sW) none value false n t =
      ⟨.error .attributeError, [some sW, none], [], false, [], env.inboxAt 0⟩ ∧
    (∀ (sR : String) (bsR : List Nat), uuidBytearray sR = some bsR →
      env.writeOk (env.getHandle bsW) value = true →
      charWrite env cbs (some sW) (some sR) value false n t =
        ⟨.ok (), [some sW, some sR], [(env.getHandle bsW, value)], false, [],
          env.inboxAt 0⟩) := by
  constructor
  · simp [charWrite, getHandleRes, hbW]
  · intro sR bsR hbR hok
    simp [charWrite, getHandleRes, hbW, hbR, hok]

/-- Claim C3 (witness): the amended statement at a concrete input — with a
well-formed `uuid_recv` of `"bb"`, the non-waiting call resolves both
identifiers, issues the single backend write and returns successfully. -/
theorem charWrite_no_wait_resolves_recv_inst :
    charWrite ⟨fun _ => some 1, fun _ _ => true, fun _ => []⟩ (fun _ => [])
        (some "aa") (some "bb") [1] false 1 5 =
      ⟨.ok (), [some "aa", some "bb"], [(some 1, [1])], false, [], []⟩ :=
  (charWrite_no_wait_resolves_recv ⟨fun _ => some 1, fun _ _ => true, fun _ => []⟩
    (fun _ => []) "aa" [170] [1] 1 5 (by decide)).2 "bb" [187] (by decide) rfl

/-! ### Claim C4 -/

/-- Claim C4 (counterexample): with two packets `[1,2]`, `[3,4]` available and
two observers registered where the first raises, the value is delivered
exactly once to observer 0 and never to observer 1 — refuting the claim that
the concatenation is delivered to each registered observer exactly once.
(Reassembly itself is correct: the delivered value is `[1,2,3,4]` and both
entries are drained.) -/
theorem charWrite_reassembly_throw_cex :
    charWrite ⟨fun _ => some 2, fun _ _ => true, fun _ => [[1,2],[3,4]]⟩
        (fun u => if u = "cc" then [fun _ => true, fun _ => false] else [])
        (some "cc") (some "cc") [9] true 2 5 =
      ⟨.error (.callbackException 0), [some "cc", some "cc"], [(some 2, [9])],
        true, [(0, [1, 2, 3, 4])], []⟩ := by
  have hw : waitLoop (fun _ => [[1,2],[3,4]]) 2 5 0 = .inl 0 := by
    rw [waitLoop]; norm_num
  simp only [charWrite]
  simp only [hw]
  decide

/-- Claim C4 (amended): when the response handle's inbox already holds at
least `expectedPacketCount` entries, `char_write` consumes exactly
`num_packets` entries from the head of the queue in FIFO arrival order
(exactly the later entries remain), and — provided no registered observer
raises on it — delivers the concatenation of the consumed byte sequences, in
arrival order, to every registered observer exactly once, in registration
order. -/
theorem charWrite_reassembly_delivery (env : BackendEnv) (cbs : String → List Cb)
    (sW sR : String) (bsW bsR : List Nat) (hR : Nat) (value : List Nat)
    (n : ℤ) (t : ℚ)
    (hn : 0 < n)
    (hbW : uuidBytearray sW = some bsW) (hbR : uuidBytearray sR = some bsR)
    (hok : env.writeOk (env.getHandle bsW) value = true)
    (hrecv : env.getHandle bsR = some hR)
    (hfull : n ≤ ((env.inboxAt 0).length : ℤ))
    (hnothrow : ∀ cb ∈ cbs sR, cb (((env.inboxAt 0).take n.toNat).flatten) = false) :
    charWrite env cbs (some sW) (some sR) value true n t =
      ⟨.ok (), [some sW, some sR], [(env.getHandle bsW, value)], true,
        (List.range (cbs sR).length).map
          (fun i => (i, ((env.inboxAt 0).take n.toNat).flatten)),
        (env.inboxAt 0).drop n.toNat⟩ := by
  rw [charWrite_wait_unfold env cbs sW sR bsW bsR hR value n t hn hbW hbR hok hrecv]
  rw [waitLoop_exit (not_lt.mpr hfull)]
  have hlen : n.toNat ≤ (env.inboxAt 0).length := by omega
  simp only [drainLoop_eq _ _ hlen, dispatch, dispatchFrom_ok (cbs sR) 0 hnothrow]
  simp [List.map_map]

/-- Claim C4 (witness): the amended statement at a concrete input — queue
`[[1,2],[3,4],[5]]`, `num_packets = 2`, two benign observers: both observers
receive `[1,2,3,4]` exactly once, in order, and only the entry `[5]` remains
in the queue. -/
theorem charWrite_reassembly_delivery_inst :
    charWrite ⟨fun _ => some 3, fun _ _ => true, fun _ => [[1,2],[3,4],[5]]⟩
        (fun u => if u = "dd" then [fun _ => false, fun _ => false] else [])
        (some "dd") (some "dd") [8] true 2 1 =
      ⟨.ok (), [some "dd", some "dd"], [(some 3, [8])],
        true, [(0, [1, 2, 3, 4]), (1, [1, 2, 3, 4])], [[5]]⟩ := by
  have h := charWrite_reassembly_delivery ⟨fun _ => some 3, fun _ _ => true, fun _ => [[1,2],[3,4],[5]]⟩
    (fun u => if u = "dd" then [fun _ => false, fun _ => false] else [])
    "dd" "dd" [221] [221] 3 [8] 2 1
    (by norm_num) (by decide) (by decide) rfl rfl (by norm_num)
    (by intro c hc; simp at hc; subst hc; rfl)
  simpa using h

/-! ### Claim C5 -/

/-- Claim C5 (counterexample): the claim quantifies over every `char_write`
call whose inbox never fills, but at `bled112_timeout = -1` the loop raises
`NoResponseError` with elapsed wait 0, which is not within one 250 ms quantum
of the requested timeout (`0 - (-1) = 1 > 1/4`): the "within one polling
quantum" part fails for negative timeouts. -/
theorem charWrite_timeout_cex :
    charWrite ⟨fun _ => some 1, fun _ _ => true, fun _ => []⟩ (fun _ => [])
        (some "aa") (some "aa") [0] true 1 (-1) =
      ⟨.error (.noResponse 0), [some "aa", some "aa"], [(some 1, [0])], true, [], []⟩ ∧
    ¬ ((0 : ℚ) ≤ (-1 : ℚ) + 1/4) := by
  constructor
  · have hw : waitLoop (fun _ => []) 1 (-1) 0 = .inr 0 := by
      rw [waitLoop]; norm_num
    simp only [charWrite]
    simp only [hw]
    rw [show (((0:ℕ):ℚ))/4 = 0 by norm_num]
    decide
  · norm_num

/-- Claim C5 (amended): for a nonnegative `bled112_timeout`, a waiting
`char_write` whose response inbox never reaches `num_packets` entries raises
`NoResponseError` carrying the accumulated elapsed wait `⌈4t⌉.toNat / 4`,
which is at least the timeout and exceeds it by less than one 250 ms quantum;
no observer is invoked; and (final conjunct) in every iteration the
inbox-length condition is checked before the timeout condition — a
sufficiently long inbox exits the loop to reassembly even when the timeout
has already expired. -/
theorem charWrite_timeout_no_response (env : BackendEnv) (cbs : String → List Cb)
    (sW sR : String) (bsW bsR : List Nat) (hR : Nat) (value : List Nat)
    (n : ℤ) (t : ℚ)
    (h0 : 0 ≤ t) (hn : 0 < n)
    (hbW : uuidBytearray sW = some bsW) (hbR : uuidBytearray sR = some bsR)
    (hok : env.writeOk (env.getHandle bsW) value = true)
    (hrecv : env.getHandle bsR = some hR)
    (hshort : ∀ k, ((env.inboxAt k).length : ℤ) < n) :
    charWrite env cbs (some sW) (some sR) value true n t =
      ⟨.error (.noResponse ((((⌈4 * t⌉).toNat : ℚ)) / 4)), [some sW, some sR],
        [(env.getHandle bsW, value)], true, [], env.inboxAt ((⌈4 * t⌉).toNat)⟩ ∧
    t ≤ (((⌈4 * t⌉).toNat : ℚ)) / 4 ∧
    (((⌈4 * t⌉).toNat : ℚ)) / 4 < t + 1/4 ∧
    (∀ (inbox2 : Nat → List (List Nat)) (n2 : ℤ) (t2 : ℚ) (k : Nat),
      ¬ (((inbox2 k).length : ℤ) < n2) → waitLoop inbox2 n2 t2 k = .inl k) := by
  refine ⟨?_, timeout_le_quarter, ?_, fun inbox2 n2 t2 k h => waitLoop_exit h⟩
  · rw [charWrite_wait_unfold env cbs sW sR bsW bsR hR value n t hn hbW hbR hok hrecv]
    simp only [waitLoop_never_zero hshort]
  · by_cases hN : (⌈4 * t⌉).toNat = 0
    · rw [hN]
      norm_num
      linarith
    · have hq : (((⌈4 * t⌉).toNat - 1 : Nat) : ℚ) / 4 < t :=
        quarter_lt_timeout (by omega)
      have hc : (((⌈4 * t⌉).toNat - 1 : Nat) : ℚ) = (((⌈4 * t⌉).toNat : ℚ)) - 1 := by
        have h1 : 1 ≤ (⌈4 * t⌉).toNat := by omega
        push_cast [Nat.cast_sub h1]
        ring
      rw [hc] at hq
      linarith

/-- Claim C5 (witness): the amended statement at a concrete input — a backend
that never delivers, `num_packets = 1`, timeout 1 s: the call raises
`NoResponseError` after `⌈4⌉.toNat / 4 = 1` second of accumulated wait, with
no observer invocation. -/
theorem charWrite_timeout_no_response_inst :
    charWrite ⟨fun _ => some 1, fun _ _ => true, fun _ => []⟩ (fun _ => [])
        (some "aa") (some "aa") [0] true 1 1 =
      ⟨.error (.noResponse ((((⌈(4 : ℚ) * 1⌉).toNat : ℚ)) / 4)), [some "aa", some "aa"],
        [(some 1, [0])], true, [], []⟩ ∧
    (((⌈(4 : ℚ) * 1⌉).toNat : ℚ)) / 4 = 1 := by
  have h := charWrite_timeout_no_response ⟨fun _ => some 1, fun _ _ => true, fun _ => []⟩
    (fun _ => []) "aa" "aa" [170] [170] 1 [0] 1 1
    (by norm_num) (by norm_num) (by decide) (by decide) rfl rfl (fun k => by norm_num)
  refine ⟨h.1, ?_⟩
  rw [show (⌈(4:ℚ) * 1⌉) = 4 by norm_num, show Int.toNat 4 = 4 from rfl]
  norm_num

/-! ### Claim C6 -/

/-- Claim C6: a waiting `char_write` with a non-positive `num_packets` raises
`ValueError` before any I/O: no `_get_handle` call is attempted, no backend
write is issued, the notification inbox is never consulted and no observer is
invoked. -/
theorem charWrite_invalid_num_packets (env : BackendEnv) (cbs : String → List Cb)
    (uuidW uuidR : Option String) (value : List Nat) (n : ℤ) (t : ℚ) (hn : n ≤ 0) :
    charWrite env cbs uuidW uuidR value true n t =
      ⟨.error (.valueError "num_packets must be greater than 0"), [], [], false, [],
        env.inboxAt 0⟩ := by
  simp [charWrite, hn]

/-- Claim C6 (witness): the statement at a concrete input with
`num_packets = 0`. -/
theorem charWrite_invalid_num_packets_inst :
    charWrite ⟨fun _ => some 1, fun _ _ => true, fun _ => []⟩ (fun _ => [])
        (some "aa") (some "aa") [1] true 0 5 =
      ⟨.error (.valueError "num_packets must be greater than 0"), [], [], false, [], []⟩ :=
  charWrite_invalid_num_packets _ _ _ _ _ _ _ (by norm_num)

/-! ### Claim C7 -/

/-- Claim C7: `_uuid_bytearray` on a canonically hyphenated UUID string of
the base form `0000XXXX-0000-1000-8000-00805F9B34FB` (for any hex digits
`XXXX`, either letter case) strips the hyphens and hex-decodes the remaining
32 digits into the 16-byte sequence
`00 00 XX XX 00 00 10 00 80 00 00 80 5F 9B 34 FB`; the conversion is a plain
function of the string, hence deterministic. -/
theorem uuidBytearray_canonical (c1 c2 c3 c4 : Char) (v1 v2 v3 v4 : Nat)
    (h1 : hexVal c1 = some v1) (h2 : hexVal c2 = some v2)
    (h3 : hexVal c3 = some v3) (h4 : hexVal c4 = some v4) :
    uuidBytearray (String.mk
      ['0','0','0','0',c1,c2,c3,c4,'-','0','0','0','0','-','1','0','0','0','-',
        '8','0','0','0','-','0','0','8','0','5','F','9','B','3','4','F','B'])
      = some [0, 0, 16*v1+v2, 16*v3+v4, 0, 0, 16, 0, 128, 0, 0, 128, 95, 155, 52, 251] := by
  have hne1 := hexVal_ne_dash h1
  have hne2 := hexVal_ne_dash h2
  have hne3 := hexVal_ne_dash h3
  have hne4 := hexVal_ne_dash h4
  have e0 : hexVal '0' = some 0 := by decide
  have e1 : hexVal '1' = some 1 := by decide
  have e3 : hexVal '3' = some 3 := by decide
  have e4 : hexVal '4' = some 4 := by decide
  have e5 : hexVal '5' = some 5 := by decide
  have e8 : hexVal '8' = some 8 := by decide
  have e9 : hexVal '9' = some 9 := by decide
  have eB : hexVal 'B' = some 11 := by decide
  have eF : hexVal 'F' = some 15 := by decide
  simp only [uuidBytearray, List.filter, hne1, hne2, hne3, hne4]
  norm_num [unhexlifyChars, e0, e1, e3, e4, e5, e8, e9, eB, eF, h1, h2, h3, h4]

/-- Claim C7 (witness): the statement at the concrete digits `2a37` — the
heart-rate-measurement UUID decodes to
`00 00 2A 37 00 00 10 00 80 00 00 80 5F 9B 34 FB`. -/
theorem uuidBytearray_canonical_inst :
    uuidBytearray (String.mk
      ['0','0','0','0','2','a','3','7','-','0','0','0','0','-','1','0','0','0','-',
        '8','0','0','0','-','0','0','8','0','5','F','9','B','3','4','F','B'])
      = some [0, 0, 16*2+10, 16*3+7, 0, 0, 16, 0, 128, 0, 0, 128, 95, 155, 52, 251] :=
  uuidBytearray_canonical '2' 'a' '3' '7' 2 10 3 7 (by decide) (by decide) (by decide) (by decide)

/-! ### Claim C8 -/

/-- One public operation never removes registry content: its registry effect
is a per-identifier append. -/
theorem registryStep_grows (op : DeviceOp) (reg : String → List Cb) (u : String) :
    ∃ tl, registryStep reg op u = reg u ++ tl := by
  match op with
  | .otherCall => exact ⟨[], by simp [registryStep]⟩
  | .subscribeCall u2 cb ind =>
    match cb with
    | none => exact ⟨[], by simp [registryStep, subscribeOp]⟩
    | some c =>
      match hb : uuidBytearray u2 with
      | none => exact ⟨[], by simp [registryStep, subscribeOp, hb]⟩
      | some bs =>
        by_cases he : u = u2
        · exact ⟨[c], by simp [registryStep, subscribeOp, hb, he]⟩
        · exact ⟨[], by simp [registryStep, subscribeOp, hb, he]⟩

/-- Across any operation sequence, each identifier's observer list only ever
gains a (possibly empty) suffix. -/
theorem runOps_grows : ∀ (ops : List DeviceOp) (reg : String → List Cb) (u : String),
    ∃ tl, runOps reg ops u = reg u ++ tl := by
  intro ops
  induction ops with
  | nil => intro reg u; exact ⟨[], by simp [runOps]⟩
  | cons op rest ih =>
    intro reg u
    obtain ⟨t1, h1⟩ := registryStep_grows op reg u
    obtain ⟨t2, h2⟩ := ih (registryStep reg op) u
    exact ⟨t1 ++ t2, by rw [runOps, h2, h1, List.append_assoc]⟩

/-- Claim C8: the callback registry only grows — after any sequence of public
operations every previously registered observer is still present, at its old
position, in its identifier's list (the old list is a prefix of the new one);
and a successful `subscribe` with a callback appends exactly that callback at
the end of the identifier's list, leaving every other identifier's list
untouched. -/
theorem registry_only_grows (reg : String → List Cb) (ops : List DeviceOp) :
    (∀ u, ∃ tl, runOps reg ops u = reg u ++ tl) ∧
    (∀ (uuid : String) (cb : Cb) (ind : Bool) (bs : List Nat),
      uuidBytearray uuid = some bs →
        (subscribeOp reg uuid (some cb) ind).result = .ok () ∧
        (subscribeOp reg uuid (some cb) ind).registry uuid = reg uuid ++ [cb] ∧
        ∀ u, u ≠ uuid → (subscribeOp reg uuid (some cb) ind).registry u = reg u) := by
  constructor
  · intro u
    exact runOps_grows ops reg u
  · intro uuid cb ind bs hbs
    refine ⟨by simp [subscribeOp, hbs], by simp [subscribeOp, hbs], ?_⟩
    intro u hu
    simp [subscribeOp, hbs, hu]

/-- Claim C8 (witness): the statement at a concrete input — subscribing to
`"aa"` with one callback on an empty registry succeeds and yields the
one-element entry. -/
theorem registry_only_grows_inst :
    (subscribeOp (fun _ => []) "aa" (some (fun _ => false)) false).result = .ok () ∧
    (subscribeOp (fun _ => []) "aa" (some (fun _ => false)) false).registry "aa"
      = [fun _ => false] :=
  have h := (registry_only_grows (fun _ => []) []).2 "aa" (fun _ => false) false [170] (by decide)
  ⟨h.1, h.2.1⟩

/-! ### Claim C9 -/

/-- Claim C9: `subscribe` with the default `callback = None` raises
`AttributeError` (the logging statement dereferences `callback.__name__`)
before any backend interaction and before any registry change: the backend
subscribe is never reached and the registry is returned unchanged. -/
theorem subscribe_none_callback_raises (reg : String → List Cb) (uuid : String)
    (ind : Bool) :
    subscribeOp reg uuid none ind = ⟨.error .attributeError, false, reg⟩ := rfl

/-! ### Claim C10 -/

/-- Claim C10: the polling loop of `char_write` terminates for every inbox
behaviour and every finite timeout: the accumulated wait grows by 0.25 s per
iteration, so the loop's final poll index `k` is at most `⌈4t⌉.toNat` — that
is, at most `⌈t / 0.25⌉ + 1` iterations occur — and it either exits to
reassembly (`.inl`) or raises `NoResponseError` (`.inr`, elapsed `k / 4`);
moreover for `t ≤ 0` it raises on the very first iteration whenever the inbox
is short. -/
theorem waitLoop_always_terminates (inboxAt : Nat → List (List Nat)) (n : ℤ) (t : ℚ) :
    (∃ k, k ≤ (⌈4 * t⌉).toNat ∧
      (waitLoop inboxAt n t 0 = .inl k ∨ waitLoop inboxAt n t 0 = .inr k)) ∧
    (t ≤ 0 → ((inboxAt 0).length : ℤ) < n → waitLoop inboxAt n t 0 = .inr 0) := by
  constructor
  · obtain ⟨k2, hk2, hor⟩ := waitLoop_bounded inboxAt n t ((⌈4 * t⌉).toNat) 0 (by omega)
    exact ⟨k2, hk2, hor⟩
  · intro ht hshort
    apply waitLoop_raise hshort
    simpa using ht

/-- Claim C10 (witness): the second conjunct at a concrete input — an empty
inbox with timeout 0 raises at the first poll. -/
theorem waitLoop_always_terminates_inst :
    waitLoop (fun _ => ([] : List (List Nat))) 1 0 0 = .inr 0 :=
  (waitLoop_always_terminates (fun _ => []) 1 0).2 le_rfl (by norm_num)
